import Mathlib

/-!
Shallow embedding of the Northwestern FinTech trading-competition strategies
(`template.py`, `crypto.py`, `hft.py`, `hft_marketmaking.py`).  Python floats
are modelled as rationals, Python dicts keyed by price as association lists in
insertion order, and calls to the exchange-side collaborator
(`place_market_order`, `place_limit_order`, `cancel_order`) as an explicit
list of emitted `Call` values.  Every event handler is a pure function from
the strategy state (plus the current wall-clock time, passed explicitly) to a
new state and the list of collaborator calls it issued.
-/

inductive Side where
  | BUY
  | SELL
deriving DecidableEq, Repr

inductive Ticker where
  | ETH
  | BTC
  | LTC
deriving DecidableEq, Repr

/-- A call issued to the exchange-side collaborator. -/
inductive Call where
  | cancel (ticker : Ticker) (order_id : Nat)
  | limit (side : Side) (ticker : Ticker) (quantity : ℚ) (price : ℚ) (ioc : Bool)
  | market (side : Side) (ticker : Ticker) (quantity : ℚ)
deriving DecidableEq, Repr

/-- Pointwise update of a per-ticker map, mirroring assignment to a Python
dict entry `d[ticker] = v`. -/
def updT {α : Type} (f : Ticker → α) (t : Ticker) (v : α) : Ticker → α :=
  fun u => if u = t then v else f u

/-! ## The order-book side: a Python dict from price to quantity.

Modelled as an association list in insertion order; the handlers only ever
store pairwise-distinct keys, and all quantities the handlers store are
positive. -/

abbrev Book := List (ℚ × ℚ)

/-- `d[price] = quantity` on a Python dict: replace in place if present,
append otherwise. -/
def bookUpsert (b : Book) (price qty : ℚ) : Book :=
  if b.any (fun e => decide (e.1 = price)) then
    b.map (fun e => if e.1 = price then (price, qty) else e)
  else
    b ++ [(price, qty)]

/-- `d.pop(price, None)` on a Python dict. -/
def bookRemove (b : Book) (price : ℚ) : Book :=
  b.filter (fun e => decide (e.1 ≠ price))

/-- Lookup of a price level. -/
def bookGet : Book → ℚ → Option ℚ
  | [], _ => none
  | e :: rest, price => if e.1 = price then some e.2 else bookGet rest price

/-- `sum(d.values())`. -/
def bookSum (b : Book) : ℚ :=
  (b.map Prod.snd).sum

/-- `max(d.keys())`; only used on non-empty books. -/
def bookMax : Book → ℚ
  | [] => 0
  | e :: rest => rest.foldl (fun m x => max m x.1) e.1

/-- `min(d.keys())`; only used on non-empty books. -/
def bookMin : Book → ℚ
  | [] => 0
  | e :: rest => rest.foldl (fun m x => min m x.1) e.1

/-- One recorded trade print, as appended by `on_trade_update`. -/
structure Trade where
  time : ℚ
  side : Side
  qty : ℚ
deriving DecidableEq, Repr

namespace Template

/-! ### `template.py` (the same data model as `hft_marketmaking.py`, which
differs only in the constant `BOOK_THRESHOLD` and the quote prices/sizes of
`update_quotes`). -/

def TRADE_TICKER : Option Ticker := some Ticker.LTC
def BOOK_THRESHOLD : ℚ := 3/2
def FLOW_MIN : ℚ := 95/100
def FLOW_MAX : ℚ := 105/100
def TRADE_WINDOW : ℚ := 10
def UPDATE_INTERVAL : ℚ := 1/10
def MID_SHIFT : ℚ := 25/100

/-- Strategy state of `template.py`.  Each entry of `active_orders` records
the order id returned by `place_limit_order` together with the side of the
placement that produced it (the side is carried so that the per-side resting
order invariant can be stated; the Python list holds the bare ids). -/
structure TState where
  bids : Ticker → Book
  asks : Ticker → Book
  recent_trades : Ticker → List Trade
  active_orders : Ticker → List (Side × Nat)
  last_update : Ticker → ℚ

def initT : TState where
  bids := fun _ => []
  asks := fun _ => []
  recent_trades := fun _ => []
  active_orders := fun _ => []
  last_update := fun _ => 0

def should_trade (t : Ticker) : Bool :=
  match TRADE_TICKER with
  | none => true
  | some tt => decide (t = tt)

def get_book_imbalance (s : TState) (t : Ticker) : ℚ :=
  if s.bids t = [] ∨ s.asks t = [] then 1
  else
    let bid_qty := bookSum (s.bids t)
    let ask_qty := bookSum (s.asks t)
    if ask_qty = 0 then 5 else bid_qty / ask_qty

/-- The aggregation loop of `get_flow_imbalance`: a fold over the recorded
trades accumulating `(aggressive_buys, aggressive_sells)`. -/
def flowAgg (trades : List Trade) (cutoff : ℚ) : ℚ × ℚ :=
  trades.foldl
    (fun acc tr =>
      if tr.time > cutoff then
        if tr.side = Side.BUY then (acc.1 + tr.qty, acc.2) else (acc.1, acc.2 + tr.qty)
      else acc)
    (0, 0)

def get_flow_imbalance (trades : List Trade) (now : ℚ) : ℚ :=
  let cutoff := now - TRADE_WINDOW
  let agg := flowAgg trades cutoff
  if agg.2 = 0 then (if agg.1 > 0 then 5 else 1) else agg.1 / agg.2

def update_quotes (s : TState) (t : Ticker) (now : ℚ) : TState × List Call :=
  if s.bids t = [] ∨ s.asks t = [] then (s, [])
  else
    let book_imbalance := get_book_imbalance s t
    let flow_imbalance := get_flow_imbalance (s.recent_trades t) now
    let cancels := (s.active_orders t).map (fun o => Call.cancel t o.2)
    let s1 : TState := { s with active_orders := updT s.active_orders t [] }
    let best_bid := bookMax (s.bids t)
    let best_ask := bookMin (s.asks t)
    let mid := (best_bid + best_ask) / 2
    let spread := best_ask - best_bid
    let half_spread := spread / 2
    if ¬ (FLOW_MIN ≤ flow_imbalance ∧ flow_imbalance ≤ FLOW_MAX) then (s1, cancels)
    else if book_imbalance > BOOK_THRESHOLD then
      let adjusted_mid := mid + MID_SHIFT * spread
      let buy_price := adjusted_mid - half_spread
      let sell_price := adjusted_mid + half_spread
      ({ s1 with active_orders := updT s1.active_orders t [(Side.BUY, 0), (Side.SELL, 0)] },
        cancels ++ [Call.limit Side.BUY t 100 buy_price false,
                    Call.limit Side.SELL t 100 sell_price false])
    else if book_imbalance < 1 / BOOK_THRESHOLD then
      let adjusted_mid := mid - MID_SHIFT * spread
      let buy_price := adjusted_mid - half_spread
      let sell_price := adjusted_mid + half_spread
      ({ s1 with active_orders := updT s1.active_orders t [(Side.BUY, 0), (Side.SELL, 0)] },
        cancels ++ [Call.limit Side.BUY t 100 buy_price false,
                    Call.limit Side.SELL t 100 sell_price false])
    else (s1, cancels)

def on_trade_update (s : TState) (t : Ticker) (sd : Side) (qty _price now : ℚ) : TState :=
  if should_trade t then
    let trades := s.recent_trades t ++ [⟨now, sd, qty⟩]
    let cutoff := now - 60
    let trades := trades.dropWhile (fun tr => decide (tr.time < cutoff))
    { s with recent_trades := updT s.recent_trades t trades }
  else s

def on_orderbook_update (s : TState) (t : Ticker) (sd : Side) (qty price now : ℚ) :
    TState × List Call :=
  if should_trade t then
    let s1 : TState :=
      match sd with
      | Side.BUY =>
        if qty > 0 then { s with bids := updT s.bids t (bookUpsert (s.bids t) price qty) }
        else { s with bids := updT s.bids t (bookRemove (s.bids t) price) }
      | Side.SELL =>
        if qty > 0 then { s with asks := updT s.asks t (bookUpsert (s.asks t) price qty) }
        else { s with asks := updT s.asks t (bookRemove (s.asks t) price) }
    if now - s1.last_update t < UPDATE_INTERVAL then (s1, [])
    else
      let s2 : TState := { s1 with last_update := updT s1.last_update t now }
      update_quotes s2 t now
  else (s, [])

/-- `on_account_update` of `template.py` only logs; no state change, no calls. -/
def on_account_update (s : TState) (_t : Ticker) (_sd : Side)
    (_price _qty _cap : ℚ) : TState × List Call :=
  (s, [])

/-- An inbound event, carrying the wall-clock time at which it is processed. -/
inductive TEvent where
  | trade (t : Ticker) (sd : Side) (qty price now : ℚ)
  | book (t : Ticker) (sd : Side) (qty price now : ℚ)
  | fill (t : Ticker) (sd : Side) (price qty cap now : ℚ)

def stepT (s : TState) (e : TEvent) : TState × List Call :=
  match e with
  | .trade t sd qty price now => (on_trade_update s t sd qty price now, [])
  | .book t sd qty price now => on_orderbook_update s t sd qty price now
  | .fill t sd price qty cap _now => on_account_update s t sd price qty cap

def runFrom (s : TState) (evs : List TEvent) : TState :=
  evs.foldl (fun s e => (stepT s e).1) s

def runT (evs : List TEvent) : TState :=
  runFrom initT evs

/-- The slot discipline maintained by the order tracker: the recorded list of
active orders is either empty or exactly one buy and one sell. -/
def ordersOk (l : List (Side × Nat)) : Prop :=
  l = [] ∨ l = [(Side.BUY, 0), (Side.SELL, 0)]

def invOrders (s : TState) : Prop := ∀ t, ordersOk (s.active_orders t)

/-- The positivity discipline of the book store: every stored level has a
strictly positive quantity. -/
def booksPos (s : TState) : Prop :=
  ∀ t, (∀ e ∈ s.bids t, 0 < e.2) ∧ (∀ e ∈ s.asks t, 0 < e.2)

/-- The order-book side a book update addresses. -/
def sideBook (s : TState) (sd : Side) (t : Ticker) : Book :=
  match sd with
  | Side.BUY => s.bids t
  | Side.SELL => s.asks t

end Template

namespace Crypto

/-! ### `crypto.py`: the fee-aware market maker. -/

def reprice_interval : ℚ := 18/100
def max_position : ℚ := 50
def order_size : ℚ := 1
def fee_rate : ℚ := 4/1000

/-- Round half to even at a given scaled integer, the rounding mode of
Python `round`. -/
def roundHalfEven (x : ℚ) : ℤ :=
  let f := ⌊x⌋
  let frac := x - f
  if frac < 1/2 then f
  else if frac > 1/2 then f + 1
  else if f % 2 = 0 then f else f + 1

/-- Python `round(x, 8)`. -/
def round8 (x : ℚ) : ℚ :=
  (roundHalfEven (x * 10 ^ 8) : ℚ) / 10 ^ 8

/-- Strategy state of `crypto.py`.  The Python dicts
`order_book_orders[t]` and `order_book_prices[t]` are keyed by the strings
`"buy"` and `"sell"`, modelled here by `Side`. -/
structure CState where
  best_bid : Ticker → Option ℚ
  best_ask : Ticker → Option ℚ
  prices_ts : Ticker → ℚ
  last_reprice : ℚ
  positions : Ticker → ℚ
  capital : ℚ
  order_book_orders : Ticker → Side → Option Nat
  order_book_prices : Ticker → Side → Option ℚ

def initC : CState where
  best_bid := fun _ => none
  best_ask := fun _ => none
  prices_ts := fun _ => 0
  last_reprice := 0
  positions := fun _ => 0
  capital := 100000
  order_book_orders := fun _ _ => none
  order_book_prices := fun _ _ => none

/-- Pointwise update of a per-ticker-and-side slot map. -/
def updSlot {α : Type} (f : Ticker → Side → α) (t : Ticker) (sd : Side) (v : α) :
    Ticker → Side → α :=
  fun t' sd' => if t' = t ∧ sd' = sd then v else f t' sd'

/-- Clear both the order-id and the price entry of one slot (the effect of a
completed `_safe_cancel`). -/
def clearSlot (s : CState) (t : Ticker) (sd : Side) : CState :=
  { s with
    order_book_orders := updSlot s.order_book_orders t sd none
    order_book_prices := updSlot s.order_book_prices t sd none }

/-- Record an order id and its price in one slot (the effect of a successful
`_place_limit`). -/
def setSlot (s : CState) (t : Ticker) (sd : Side) (oid : Nat) (price : ℚ) : CState :=
  { s with
    order_book_orders := updSlot s.order_book_orders t sd (some oid)
    order_book_prices := updSlot s.order_book_prices t sd (some price) }

/-- `_safe_cancel`: if an order id is recorded, call `cancel_order` and clear
the slot.  The collaborator stub never raises here; `safe_cancelX` below
models the raising collaborator. -/
def safe_cancel (s : CState) (t : Ticker) (sd : Side) : CState × List Call :=
  match s.order_book_orders t sd with
  | none => (s, [])
  | some oid => (clearSlot s t sd, [Call.cancel t oid])

/-- `_place_limit` with the stub collaborator, which returns order id 0. -/
def place_limit (s : CState) (sd : Side) (t : Ticker) (qty price : ℚ) :
    CState × List Call :=
  (setSlot s t sd 0 price, [Call.limit sd t qty price false])

/-- The replace condition of `_manage_market_maker`:
`current_price is None or abs(current_price - target) > tol`. -/
def needs_replace (cur : Option ℚ) (target tol : ℚ) : Bool :=
  match cur with
  | none => true
  | some p => decide (|p - target| > tol)

/-- One cancel-and-replace block of `_manage_market_maker` (the buy block and
the sell block of the source are this code with `sd`, `target` and the risk
gate instantiated). -/
def process_slot (s : CState) (t : Ticker) (sd : Side) (target tol : ℚ)
    (canPlace : Bool) : CState × List Call :=
  if needs_replace (s.order_book_prices t sd) target tol then
    let r1 := safe_cancel s t sd
    if canPlace then
      let r2 := place_limit r1.1 sd t order_size target
      (r2.1, r1.2 ++ r2.2)
    else r1
  else (s, [])

/-- The settled condition of a slot after one reconciliation pass at a given
target: the recorded price equals the target, or no order id is recorded and
the risk gate forbids placing, or the replace condition does not fire. -/
def slotSettled (prices : Option ℚ) (orders : Option Nat) (target tol : ℚ)
    (can : Bool) : Prop :=
  prices = some target ∨ (orders = none ∧ can = false) ∨
    needs_replace prices target tol = false

/-- The fee-aware profitability gate of `_manage_market_maker`. -/
def expected_profit (target_buy target_sell size fee : ℚ) : ℚ :=
  (target_sell - target_buy) * size - (target_sell + target_buy) * size * fee

/-- `mid = (bid + ask) / 2`. -/
def mm_mid (bid ask : ℚ) : ℚ := (bid + ask) / 2

/-- `spread = ask - bid`. -/
def mm_spread (bid ask : ℚ) : ℚ := ask - bid

/-- `min_tick = mid * fee_rate`. -/
def mm_min_tick (bid ask : ℚ) : ℚ := mm_mid bid ask * fee_rate

/-- `tick = max(min_tick, spread * 0.35)`. -/
def mm_tick (bid ask : ℚ) : ℚ := max (mm_min_tick bid ask) (mm_spread bid ask * (35/100))

/-- `target_buy = round(mid - tick, 8)`. -/
def mm_target_buy (bid ask : ℚ) : ℚ := round8 (mm_mid bid ask - mm_tick bid ask)

/-- `target_sell = round(mid + tick, 8)`. -/
def mm_target_sell (bid ask : ℚ) : ℚ := round8 (mm_mid bid ask + mm_tick bid ask)

/-- The cancel-replace tolerance `max(0.0001, 0.5 * tick)`. -/
def mm_tol (bid ask : ℚ) : ℚ := max (1/10000) ((5/10) * mm_tick bid ask)

def manage_market_maker (s : CState) (t : Ticker) : CState × List Call :=
  match s.best_bid t, s.best_ask t with
  | some bid, some ask =>
    let can_buy := decide (s.positions t < max_position) &&
      decide (s.capital > mm_target_buy bid ask * order_size)
    let can_sell := decide (s.positions t > -max_position)
    if expected_profit (mm_target_buy bid ask) (mm_target_sell bid ask)
        order_size fee_rate ≤ 0 then (s, [])
    else
      let r1 := process_slot s t Side.BUY (mm_target_buy bid ask) (mm_tol bid ask) can_buy
      let r2 := process_slot r1.1 t Side.SELL (mm_target_sell bid ask) (mm_tol bid ask) can_sell
      (r2.1, r1.2 ++ r2.2)
  | _, _ => (s, [])

/-- The reconciliation sweep `for t in self.tickers: self._manage_market_maker(t)`. -/
def manage_all (s : CState) : CState × List Call :=
  let r1 := manage_market_maker s Ticker.ETH
  let r2 := manage_market_maker r1.1 Ticker.BTC
  let r3 := manage_market_maker r2.1 Ticker.LTC
  (r3.1, r1.2 ++ r2.2 ++ r3.2)

def on_trade_update (s : CState) (_t : Ticker) (_sd : Side) (_price _qty now : ℚ) :
    CState × List Call :=
  if now - s.last_reprice > reprice_interval then
    let r := manage_all s
    ({ r.1 with last_reprice := now }, r.2)
  else (s, [])

def on_orderbook_update (s : CState) (t : Ticker) (sd : Side) (price _qty now : ℚ) :
    CState × List Call :=
  let s1 : CState :=
    match sd with
    | Side.BUY => { s with best_bid := updT s.best_bid t (some price) }
    | Side.SELL => { s with best_ask := updT s.best_ask t (some price) }
  let s2 : CState := { s1 with prices_ts := updT s1.prices_ts t now }
  if now - s2.last_reprice > reprice_interval then
    let r := manage_all s2
    ({ r.1 with last_reprice := now }, r.2)
  else (s2, [])

def on_account_update (s : CState) (t : Ticker) (sd : Side) (_price qty cap : ℚ) :
    CState × List Call :=
  let s1 : CState :=
    match sd with
    | Side.BUY => { s with positions := updT s.positions t (s.positions t + qty) }
    | Side.SELL => { s with positions := updT s.positions t (s.positions t - qty) }
  let s2 : CState := { s1 with capital := cap }
  let r1 := if s2.positions t ≥ max_position then safe_cancel s2 t Side.BUY else (s2, [])
  let r2 := if r1.1.positions t ≤ -max_position then safe_cancel r1.1 t Side.SELL
    else (r1.1, [])
  (r2.1, r1.2 ++ r2.2)

/-! ### Collaborator calls that can raise.

`cancel_orderX`/`place_limit_orderX` model the two collaborator operations
with an explicit flag saying whether this call raises; the `Except` layer
records whether an exception escapes the strategy code. -/

def cancel_orderX (throws : Bool) (_t : Ticker) (_oid : Nat) : Except String Bool :=
  if throws then Except.error "cancel failed" else Except.ok true

def place_limit_orderX (throws : Bool) (_sd : Side) (_t : Ticker) (_qty _price : ℚ) :
    Except String Nat :=
  if throws then Except.error "placement failed" else Except.ok 0

/-- `_safe_cancel` with a possibly-raising collaborator: the `try/except
Exception: pass` absorbs either outcome, and the slot is cleared in both
cases (the clearing lines sit after the `try` block). -/
def safe_cancelX (throws : Bool) (s : CState) (t : Ticker) (sd : Side) :
    Except String (CState × List Call) :=
  match s.order_book_orders t sd with
  | none => Except.ok (s, [])
  | some oid =>
    match cancel_orderX throws t oid with
    | Except.ok _ => Except.ok (clearSlot s t sd, [Call.cancel t oid])
    | Except.error _ => Except.ok (clearSlot s t sd, [Call.cancel t oid])

/-- `_place_limit` with a possibly-raising collaborator: the slot updates sit
inside the `try` block, so a raising placement leaves the state unchanged,
and the surrounding `except Exception: pass` absorbs the failure. -/
def place_limitX (throws : Bool) (s : CState) (sd : Side) (t : Ticker) (qty price : ℚ) :
    Except String (CState × List Call) :=
  match place_limit_orderX throws sd t qty price with
  | Except.ok oid => Except.ok (setSlot s t sd oid price, [Call.limit sd t qty price false])
  | Except.error _ => Except.ok (s, [])

end Crypto

namespace Hft

/-! ### `hft.py`: the mean-reversion variant. -/

def max_prices_stored : ℕ := 30
def max_position : ℚ := 100
def cooldown : ℚ := 1/10

/-- Strategy state of `hft.py`. -/
structure HState where
  prices : List ℚ
  capital : ℚ
  position : ℚ
  last_trade_time : ℚ

def initH : HState where
  prices := []
  capital := 100000
  position := 0
  last_trade_time := 0

def on_trade_update (s : HState) (ticker : Ticker) (_sd : Side) (price _qty now : ℚ) :
    HState × List Call :=
  let prices0 := s.prices ++ [price]
  let prices := if prices0.length > max_prices_stored then prices0.tail else prices0
  let s1 : HState := { s with prices := prices }
  if s1.prices.length < 5 then (s1, [])
  else
    let avg_price := s1.prices.sum / (s1.prices.length : ℚ)
    let latest_price := price
    let trade_qty : ℚ := 1
    if now - s1.last_trade_time < cooldown then (s1, [])
    else if latest_price < (9995/10000) * avg_price then
      if s1.capital ≥ latest_price * trade_qty ∧ s1.position < max_position then
        ({ s1 with last_trade_time := now }, [Call.market Side.BUY ticker trade_qty])
      else (s1, [])
    else if latest_price > (10005/10000) * avg_price then
      if s1.position ≥ trade_qty then
        ({ s1 with last_trade_time := now }, [Call.market Side.SELL ticker trade_qty])
      else (s1, [])
    else (s1, [])

def on_account_update (s : HState) (_t : Ticker) (sd : Side) (_price qty cap : ℚ) :
    HState × List Call :=
  let s1 : HState :=
    match sd with
    | Side.BUY => { s with position := s.position + qty }
    | Side.SELL => { s with position := s.position - qty }
  ({ s1 with capital := cap }, [])

end Hft

/-! ### Concrete states used by the counterexamples and witnesses. -/

/-- A template state with a full book, two recorded resting orders, and a
heavily buy-skewed trade window (flow imbalance 5 at time 5). -/
def c2s : Template.TState where
  bids := fun _ => [(99, 10)]
  asks := fun _ => [(101, 10)]
  recent_trades := fun _ => [⟨0, Side.BUY, 10⟩]
  active_orders := fun _ => [(Side.BUY, 0), (Side.SELL, 0)]
  last_update := fun _ => 0

/-- A template state whose ask side is empty while the bid side is not. -/
def c3s : Template.TState where
  bids := fun _ => [(100, 1)]
  asks := fun _ => []
  recent_trades := fun _ => []
  active_orders := fun _ => []
  last_update := fun _ => 0

/-- A template state with a strongly bid-heavy book (imbalance 5), an empty
trade window (neutral flow) and no recorded orders: `update_quotes` quotes
both sides from here. -/
def c5s : Template.TState where
  bids := fun _ => [(99, 10)]
  asks := fun _ => [(101, 2)]
  recent_trades := fun _ => []
  active_orders := fun _ => []
  last_update := fun _ => 0

/-- A crypto state with a resting order id 7 at price 100 in every slot. -/
def c6s : Crypto.CState :=
  { Crypto.initC with
    order_book_orders := fun _ _ => some 7
    order_book_prices := fun _ _ => some 100 }

/-- A crypto state with best bid 99.5 and best ask 101.5 (so the computed buy
target is 99.8) and a resting buy order id 7 at 99.9. -/
def c8s : Crypto.CState :=
  { Crypto.initC with
    best_bid := fun _ => some (199/2)
    best_ask := fun _ => some (203/2)
    order_book_orders := fun _ sd => if sd = Side.BUY then some 7 else none
    order_book_prices := fun _ sd => if sd = Side.BUY then some (999/10) else none }

/-- A crypto state whose best bid and ask coincide at 100: the computed
two-sided quote has zero edge after fees, so the profitability gate skips. -/
def c4s : Crypto.CState :=
  { Crypto.initC with
    best_bid := fun _ => some 100
    best_ask := fun _ => some 100 }

/-! ## Supporting lemmas. -/

theorem updT_same {α : Type} (f : Ticker → α) (t : Ticker) (v : α) :
    updT f t v t = v := by
  simp [updT]

theorem updT_other {α : Type} (f : Ticker → α) (t u : Ticker) (v : α) (h : u ≠ t) :
    updT f t v u = f u := by
  simp [updT, h]

namespace Template

/-! ### Supporting lemmas about the flow-imbalance calculator. -/

theorem flowAgg_go (trades : List Trade) (c a b : ℚ) :
    trades.foldl
      (fun acc tr =>
        if tr.time > c then
          if tr.side = Side.BUY then (acc.1 + tr.qty, acc.2) else (acc.1, acc.2 + tr.qty)
        else acc)
      (a, b) =
    (a + (((trades.filter fun tr => decide (c < tr.time ∧ tr.side = Side.BUY)).map
      Trade.qty).sum),
     b + (((trades.filter fun tr => decide (c < tr.time ∧ tr.side = Side.SELL)).map
      Trade.qty).sum)) := by
  induction trades generalizing a b with
  | nil => simp
  | cons hd tl ih =>
    obtain ⟨time, side, qty⟩ := hd
    simp only [List.foldl_cons, List.filter_cons]
    by_cases ht : time > c
    · cases side with
      | BUY =>
        simp only [gt_iff_lt] at ht
        simp [ht, ih, add_assoc]
      | SELL =>
        simp only [gt_iff_lt] at ht
        simp [ht, ih, add_assoc]
    · simp only [gt_iff_lt] at ht
      simp [ht, ih]

theorem flowAgg_eq (trades : List Trade) (c : ℚ) :
    flowAgg trades c =
      ((((trades.filter fun tr => decide (c < tr.time ∧ tr.side = Side.BUY)).map
        Trade.qty).sum),
       (((trades.filter fun tr => decide (c < tr.time ∧ tr.side = Side.SELL)).map
        Trade.qty).sum)) := by
  have h := flowAgg_go trades c 0 0
  simpa [flowAgg] using h

theorem flowAgg_boundary (tr : Trade) (trades : List Trade) (c : ℚ) (h : tr.time ≤ c) :
    flowAgg (tr :: trades) c = flowAgg trades c := by
  simp [flowAgg, List.foldl_cons, not_lt.mpr h]

/-! ### Structural lemmas about `update_quotes` and the event handlers. -/

theorem uq_bids (s : TState) (t : Ticker) (now : ℚ) :
    ((update_quotes s t now).1).bids = s.bids := by
  simp only [update_quotes]
  split_ifs <;> rfl

theorem uq_asks (s : TState) (t : Ticker) (now : ℚ) :
    ((update_quotes s t now).1).asks = s.asks := by
  simp only [update_quotes]
  split_ifs <;> rfl

theorem uq_trades (s : TState) (t : Ticker) (now : ℚ) :
    ((update_quotes s t now).1).recent_trades = s.recent_trades := by
  simp only [update_quotes]
  split_ifs <;> rfl

theorem uq_active (s : TState) (t : Ticker) (now : ℚ) (t' : Ticker) :
    ((update_quotes s t now).1).active_orders t' = s.active_orders t' ∨
    ((update_quotes s t now).1).active_orders t' = [] ∨
    ((update_quotes s t now).1).active_orders t' = [(Side.BUY, 0), (Side.SELL, 0)] := by
  simp only [update_quotes]
  split_ifs
  · exact Or.inl rfl
  all_goals
    by_cases ht : t' = t
    · subst ht; simp [updT]
    · simp [updT, ht]

theorem on_orderbook_active (s : TState) (t : Ticker) (sd : Side) (qty price now : ℚ)
    (t' : Ticker) :
    ((on_orderbook_update s t sd qty price now).1).active_orders t' = s.active_orders t' ∨
    ((on_orderbook_update s t sd qty price now).1).active_orders t' = [] ∨
    ((on_orderbook_update s t sd qty price now).1).active_orders t' =
      [(Side.BUY, 0), (Side.SELL, 0)] := by
  cases sd <;>
    · simp only [on_orderbook_update]
      split_ifs <;> first
        | exact Or.inl rfl
        | exact uq_active _ t now t'

theorem stepT_invOrders (s : TState) (e : TEvent) (h : invOrders s) :
    invOrders (stepT s e).1 := by
  cases e with
  | trade t sd qty price now =>
    intro u
    simp only [stepT, on_trade_update]
    split_ifs <;> exact h u
  | fill t sd price qty cap now => exact h
  | book t sd qty price now =>
    intro u
    rcases on_orderbook_active s t sd qty price now u with h1 | h1 | h1
    · rw [stepT, h1]; exact h u
    · rw [stepT, h1]; exact Or.inl rfl
    · rw [stepT, h1]; exact Or.inr rfl

theorem runFrom_invOrders (evs : List TEvent) :
    ∀ s : TState, invOrders s → invOrders (runFrom s evs) := by
  induction evs with
  | nil => exact fun s h => h
  | cons e tl ih =>
    intro s h
    have : runFrom s (e :: tl) = runFrom (stepT s e).1 tl := by simp [runFrom]
    rw [this]
    exact ih _ (stepT_invOrders s e h)

/-! ### The book store only ever holds strictly positive quantities. -/

theorem bookUpsert_mem {b : Book} {price qty : ℚ} {e : ℚ × ℚ}
    (h : e ∈ bookUpsert b price qty) : e ∈ b ∨ e = (price, qty) := by
  unfold bookUpsert at h
  split_ifs at h with hc
  · rcases List.mem_map.1 h with ⟨x, hx, hxe⟩
    by_cases hxp : x.1 = price
    · right
      rw [← hxe, if_pos hxp]
    · left
      rw [← hxe, if_neg hxp]
      exact hx
  · rcases List.mem_append.1 h with h1 | h1
    · exact Or.inl h1
    · right
      simpa using h1

theorem bookRemove_mem {b : Book} {price : ℚ} {e : ℚ × ℚ}
    (h : e ∈ bookRemove b price) : e ∈ b :=
  (List.mem_filter.1 h).1

theorem bookGet_remove (b : Book) (price : ℚ) :
    bookGet (bookRemove b price) price = none := by
  induction b with
  | nil => rfl
  | cons e rest ih =>
    by_cases h : e.1 = price
    · simpa [bookRemove, List.filter_cons, h] using ih
    · simpa [bookRemove, List.filter_cons, h, bookGet] using ih

theorem bookSum_pos {b : Book} (hne : b ≠ []) (hpos : ∀ e ∈ b, 0 < e.2) :
    0 < bookSum b := by
  unfold bookSum
  refine List.sum_pos _ ?_ ?_
  · intro x hx
    rcases List.mem_map.1 hx with ⟨e, he, rfl⟩
    exact hpos e he
  · simpa using hne

theorem booksPos_updT_bids {s : TState} (h : booksPos s) {t : Ticker} {b : Book}
    (hb : ∀ e ∈ b, 0 < e.2) : booksPos { s with bids := updT s.bids t b } := by
  intro u
  refine ⟨?_, (h u).2⟩
  intro e he
  by_cases hu : u = t
  · subst hu
    rw [show ({ s with bids := updT s.bids u b } : TState).bids u = b from updT_same _ _ _] at he
    exact hb e he
  · rw [show ({ s with bids := updT s.bids t b } : TState).bids u = s.bids u from
      updT_other _ _ _ _ hu] at he
    exact (h u).1 e he

theorem booksPos_updT_asks {s : TState} (h : booksPos s) {t : Ticker} {b : Book}
    (hb : ∀ e ∈ b, 0 < e.2) : booksPos { s with asks := updT s.asks t b } := by
  intro u
  refine ⟨(h u).1, ?_⟩
  intro e he
  by_cases hu : u = t
  · subst hu
    rw [show ({ s with asks := updT s.asks u b } : TState).asks u = b from updT_same _ _ _] at he
    exact hb e he
  · rw [show ({ s with asks := updT s.asks t b } : TState).asks u = s.asks u from
      updT_other _ _ _ _ hu] at he
    exact (h u).2 e he

theorem uq_booksPos {s : TState} (t : Ticker) (now : ℚ) (h : booksPos s) :
    booksPos ((update_quotes s t now).1) := by
  have hb := uq_bids s t now
  have ha := uq_asks s t now
  intro u
  constructor
  · rw [hb]; exact (h u).1
  · rw [ha]; exact (h u).2

theorem on_orderbook_booksPos (s : TState) (t : Ticker) (sd : Side) (qty price now : ℚ)
    (h : booksPos s) : booksPos ((on_orderbook_update s t sd qty price now).1) := by
  have hup : ∀ b : Book, (∀ e ∈ b, 0 < e.2) → 0 < qty →
      ∀ e ∈ bookUpsert b price qty, 0 < e.2 := by
    intro b hb hq e he
    rcases bookUpsert_mem he with h1 | h1
    · exact hb e h1
    · rw [h1]; exact hq
  have hrm : ∀ b : Book, (∀ e ∈ b, 0 < e.2) → ∀ e ∈ bookRemove b price, 0 < e.2 :=
    fun b hb e he => hb e (bookRemove_mem he)
  cases sd <;>
    · simp only [on_orderbook_update]
      split_ifs with h1 h2 h3 <;>
        first
        | exact h
        | exact booksPos_updT_bids h (hup _ (h t).1 (by assumption))
        | exact booksPos_updT_asks h (hup _ (h t).2 (by assumption))
        | exact booksPos_updT_bids h (hrm _ (h t).1)
        | exact booksPos_updT_asks h (hrm _ (h t).2)
        | exact uq_booksPos t now (booksPos_updT_bids h (hup _ (h t).1 (by assumption)))
        | exact uq_booksPos t now (booksPos_updT_asks h (hup _ (h t).2 (by assumption)))
        | exact uq_booksPos t now (booksPos_updT_bids h (hrm _ (h t).1))
        | exact uq_booksPos t now (booksPos_updT_asks h (hrm _ (h t).2))

theorem stepT_booksPos (s : TState) (e : TEvent) (h : booksPos s) :
    booksPos (stepT s e).1 := by
  cases e with
  | trade t sd qty price now =>
    simp only [stepT, on_trade_update]
    split_ifs <;> exact h
  | fill t sd price qty cap now => exact h
  | book t sd qty price now => exact on_orderbook_booksPos s t sd qty price now h

theorem runFrom_booksPos (evs : List TEvent) :
    ∀ s : TState, booksPos s → booksPos (runFrom s evs) := by
  induction evs with
  | nil => exact fun s h => h
  | cons e tl ih =>
    intro s h
    have : runFrom s (e :: tl) = runFrom (stepT s e).1 tl := by simp [runFrom]
    rw [this]
    exact ih _ (stepT_booksPos s e h)

theorem runT_booksPos (evs : List TEvent) : booksPos (runT evs) :=
  runFrom_booksPos evs initT (fun _ => ⟨by simp [initT], by simp [initT]⟩)

end Template

/-- Claim C1: for every sequence of inbound events processed by the template
strategy from its initial state, the order-tracking state records at most one
resting order per (instrument, side): filtering the recorded active orders of
any ticker to either side yields at most one entry.  (In the crypto variant
the same property is immediate from the state type, which keeps a single
optional order id per (ticker, side) slot.) -/
theorem claim_C1 (evs : List Template.TEvent) (t : Ticker) (sd : Side) :
    (((Template.runT evs).active_orders t).filter fun o => decide (o.1 = sd)).length ≤ 1 := by
  have hinv : Template.invOrders (Template.runT evs) :=
    Template.runFrom_invOrders evs Template.initT (fun _ => Or.inl rfl)
  rcases hinv t with h | h <;> rw [h] <;> cases sd <;> simp

/-- Claim C2 (amended): in the signal-gated maker, when the flow imbalance is
outside the neutral band at evaluation time, the engine places no order — but
it does not stand completely aside: before the flow check it has already
cancelled every resting order and cleared the active-order state, so the
evaluation ends with exactly the cancels of the previously active orders and
an empty slot. -/
theorem claim_C2 (s : Template.TState) (t : Ticker) (now : ℚ)
    (hb : s.bids t ≠ []) (ha : s.asks t ≠ [])
    (hf : ¬ (Template.FLOW_MIN ≤ Template.get_flow_imbalance (s.recent_trades t) now ∧
      Template.get_flow_imbalance (s.recent_trades t) now ≤ Template.FLOW_MAX)) :
    Template.update_quotes s t now =
      ({ s with active_orders := updT s.active_orders t [] },
       (s.active_orders t).map fun o => Call.cancel t o.2) := by
  simp only [Template.update_quotes]
  rw [if_neg (by simp [hb, ha]), if_pos hf]

/-- Counterexample for C2 as stated: at a state with two resting orders and
flow imbalance 5 (outside the band), the evaluation issues two cancel calls
and empties the active-order state instead of leaving it unchanged. -/
theorem claim_C2_counterexample :
    (Template.update_quotes c2s Ticker.LTC 5).2 =
      [Call.cancel Ticker.LTC 0, Call.cancel Ticker.LTC 0] ∧
    (Template.update_quotes c2s Ticker.LTC 5).1.active_orders Ticker.LTC = [] ∧
    c2s.active_orders Ticker.LTC = [(Side.BUY, 0), (Side.SELL, 0)] := by
  norm_num [Template.update_quotes, Template.get_flow_imbalance, Template.flowAgg,
    Template.get_book_imbalance, Template.FLOW_MIN, Template.FLOW_MAX,
    Template.TRADE_WINDOW, c2s, updT, List.foldl]

/-- Witness for C2 at the concrete flow-skewed state. -/
theorem claim_C2_witness :
    Template.update_quotes c2s Ticker.LTC 5 =
      ({ c2s with active_orders := updT c2s.active_orders Ticker.LTC [] },
       (c2s.active_orders Ticker.LTC).map fun o => Call.cancel Ticker.LTC o.2) :=
  claim_C2 c2s Ticker.LTC 5 (by simp [c2s]) (by simp [c2s])
    (by norm_num [c2s, Template.get_flow_imbalance, Template.flowAgg, Template.FLOW_MIN,
      Template.FLOW_MAX, Template.TRADE_WINDOW, List.foldl])

/-- Claim C3 (amended): the book-imbalance calculator never raises and is
always strictly positive on every reachable state; when either side of the
book is empty it returns the neutral value 1 — including when the ask side is
empty with a non-empty bid side, where it returns 1 rather than the sentinel
5 (the 5 branch only fires for a non-empty ask side of total quantity 0,
which no reachable book produces). -/
theorem claim_C3 :
    (∀ (s : Template.TState) (t : Ticker),
      s.bids t = [] ∨ s.asks t = [] → Template.get_book_imbalance s t = 1) ∧
    ∀ (evs : List Template.TEvent) (t : Ticker),
      0 < Template.get_book_imbalance (Template.runT evs) t := by
  constructor
  · intro s t h
    unfold Template.get_book_imbalance
    rw [if_pos h]
  · intro evs t
    have h := Template.runT_booksPos evs
    unfold Template.get_book_imbalance
    split_ifs with h1
    · norm_num
    · push_neg at h1
      by_cases hz : bookSum ((Template.runT evs).asks t) = 0
      · rw [if_pos hz]; norm_num
      · rw [if_neg hz]
        exact div_pos (Template.bookSum_pos h1.1 ((h t).1))
          (Template.bookSum_pos h1.2 ((h t).2))

/-- Counterexample for C3 as stated: with a non-empty bid side and an empty
ask side the calculator returns 1, not the sentinel 5 the claim demands. -/
theorem claim_C3_counterexample :
    c3s.bids Ticker.LTC ≠ [] ∧ c3s.asks Ticker.LTC = [] ∧
    Template.get_book_imbalance c3s Ticker.LTC = 1 ∧
    Template.get_book_imbalance c3s Ticker.LTC ≠ 5 := by
  norm_num [c3s, Template.get_book_imbalance]

/-- Witness for C3 at concrete inputs: the empty-ask state yields 1, and the
initial (empty) state yields a strictly positive value. -/
theorem claim_C3_witness :
    Template.get_book_imbalance c3s Ticker.LTC = 1 ∧
    0 < Template.get_book_imbalance (Template.runT []) Ticker.LTC :=
  ⟨claim_C3.1 c3s Ticker.LTC (Or.inr rfl), claim_C3.2 [] Ticker.LTC⟩

/-- Claim C9 (amended): in the template strategy, a book update with quantity
at most 0 removes the level, so no level with non-positive quantity ever
persists and best bid and ask are taken over currently stored levels only.
The crypto variant keeps no book at all: its `on_orderbook_update` overwrites
the cached best bid or ask with the price of every update, including a
quantity-0 removal (see the counterexample). -/
theorem claim_C9 :
    (∀ (evs : List Template.TEvent) (t : Ticker),
      (∀ e ∈ (Template.runT evs).bids t, 0 < e.2) ∧
      (∀ e ∈ (Template.runT evs).asks t, 0 < e.2)) ∧
    ∀ (s : Template.TState) (t : Ticker) (sd : Side) (qty price now : ℚ),
      Template.should_trade t = true → qty ≤ 0 →
      bookGet (Template.sideBook ((Template.on_orderbook_update s t sd qty price now).1)
        sd t) price = none := by
  constructor
  · exact fun evs t => Template.runT_booksPos evs t
  · intro s t sd qty price now hst hq
    have hq' : ¬ qty > 0 := not_lt.2 hq
    cases sd with
    | BUY =>
      simp only [Template.on_orderbook_update, Template.sideBook, hst, if_true, hq',
        if_false]
      split_ifs
      · simpa [updT] using Template.bookGet_remove (s.bids t) price
      · rw [Template.uq_bids]
        simpa [updT] using Template.bookGet_remove (s.bids t) price
    | SELL =>
      simp only [Template.on_orderbook_update, Template.sideBook, hst, if_true, hq',
        if_false]
      split_ifs
      · simpa [updT] using Template.bookGet_remove (s.asks t) price
      · rw [Template.uq_asks]
        simpa [updT] using Template.bookGet_remove (s.asks t) price

/-- Counterexample for C9 in the crypto variant: after a valid bid at 100,
an update for price 101 with quantity 0 (a removal) still overwrites the
cached best bid with 101, so the best bid used for quoting comes from a
removed level. -/
theorem claim_C9_counterexample :
    ((Crypto.on_orderbook_update Crypto.initC Ticker.ETH Side.BUY 100 5 0).1.best_bid
      Ticker.ETH = some 100) ∧
    ((Crypto.on_orderbook_update
      (Crypto.on_orderbook_update Crypto.initC Ticker.ETH Side.BUY 100 5 0).1
      Ticker.ETH Side.BUY 101 0 0).1.best_bid Ticker.ETH = some 101) := by
  norm_num [Crypto.on_orderbook_update, Crypto.initC, Crypto.reprice_interval, updT]

/-- Witness for C9 at concrete inputs: a stored level has positive quantity,
and a quantity-0 update removes the level it names. -/
theorem claim_C9_witness :
    (0 : ℚ) < 5 ∧
    bookGet (Template.sideBook
      ((Template.on_orderbook_update Template.initT Ticker.LTC Side.BUY 0 100 0).1)
      Side.BUY Ticker.LTC) 100 = none := by
  constructor
  · exact (claim_C9.1 [Template.TEvent.book Ticker.LTC Side.BUY 5 100 0] Ticker.LTC).1
      (100, 5)
      (by norm_num [Template.runT, Template.runFrom, Template.stepT,
        Template.on_orderbook_update, Template.should_trade, Template.TRADE_TICKER,
        Template.UPDATE_INTERVAL, bookUpsert, updT, Template.initT, List.foldl])
  · exact claim_C9.2 Template.initT Ticker.LTC Side.BUY 0 100 0 rfl le_rfl

/-- Claim C7: the flow-imbalance calculator sums exactly the trades whose
timestamp is strictly greater than `now` minus the trade window (so a trade
exactly at the boundary timestamp is excluded), and when the aggressive-sell
volume in the window is zero it returns 5 if any aggressive-buy volume
occurred, else 1. -/
theorem claim_C7 (trades : List Trade) (now : ℚ) :
    (Template.get_flow_imbalance trades now =
      (let buys := (((trades.filter fun tr =>
          decide (now - Template.TRADE_WINDOW < tr.time ∧ tr.side = Side.BUY)).map
          Trade.qty).sum)
       let sells := (((trades.filter fun tr =>
          decide (now - Template.TRADE_WINDOW < tr.time ∧ tr.side = Side.SELL)).map
          Trade.qty).sum)
       if sells = 0 then (if buys > 0 then 5 else 1) else buys / sells)) ∧
    ∀ tr : Trade, tr.time ≤ now - Template.TRADE_WINDOW →
      Template.get_flow_imbalance (tr :: trades) now =
        Template.get_flow_imbalance trades now := by
  constructor
  · simp [Template.get_flow_imbalance, Template.flowAgg_eq]
  · intro tr htr
    simp [Template.get_flow_imbalance, Template.flowAgg_boundary tr trades _ htr]

/-- Witness for C7 at a concrete input: a trade at exactly the boundary
timestamp (time = now minus window) is excluded, and with no trades in the
window the calculator returns the neutral value 1. -/
theorem claim_C7_witness :
    Template.get_flow_imbalance [⟨-10, Side.BUY, 3⟩] 0 =
      Template.get_flow_imbalance [] 0 ∧
    Template.get_flow_imbalance [] 0 = 1 := by
  refine ⟨(claim_C7 [] 0).2 ⟨-10, Side.BUY, 3⟩ (by norm_num [Template.TRADE_WINDOW]), ?_⟩
  norm_num [Template.get_flow_imbalance, Template.flowAgg, List.foldl]

/-- Claim C10: in the mean-reversion variant, `on_trade_update` issues a sell
market order only when the tracked position is at least the trade quantity 1;
it never initiates a sell in excess of its tracked holdings. -/
theorem claim_C10 (s : Hft.HState) (ticker : Ticker) (sd : Side)
    (price qty now : ℚ) (tk : Ticker) (q : ℚ)
    (h : Call.market Side.SELL tk q ∈ (Hft.on_trade_update s ticker sd price qty now).2) :
    1 ≤ s.position := by
  simp only [Hft.on_trade_update] at h
  split_ifs at h with h1 h2 h3 h4 h5 h6 <;>
    simp_all

/-- Witness for C10: a concrete state with position 2 where the sell branch
fires, to which the theorem applies. -/
theorem claim_C10_witness :
    Call.market Side.SELL Ticker.ETH 1 ∈
      (Hft.on_trade_update ⟨[100, 100, 100, 100], 100000, 2, -1⟩
        Ticker.ETH Side.BUY 101 1 0).2 ∧
    (1 : ℚ) ≤ 2 := by
  have hmem : Call.market Side.SELL Ticker.ETH 1 ∈
      (Hft.on_trade_update ⟨[100, 100, 100, 100], 100000, 2, -1⟩
        Ticker.ETH Side.BUY 101 1 0).2 := by
    norm_num [Hft.on_trade_update, Hft.cooldown, Hft.max_prices_stored, Hft.max_position]
  exact ⟨hmem, claim_C10 _ _ _ _ _ _ _ _ hmem⟩

namespace Crypto

/-! ### Supporting lemmas about one slot pass of the crypto market maker. -/

theorem process_slot_frame (s : CState) (t : Ticker) (sd : Side) (target tol : ℚ)
    (can : Bool) :
    ((process_slot s t sd target tol can).1.best_bid = s.best_bid) ∧
    ((process_slot s t sd target tol can).1.best_ask = s.best_ask) ∧
    ((process_slot s t sd target tol can).1.positions = s.positions) ∧
    ((process_slot s t sd target tol can).1.capital = s.capital) := by
  refine ⟨?_, ?_, ?_, ?_⟩ <;>
    · simp only [process_slot]
      split_ifs <;>
        cases ho : s.order_book_orders t sd <;>
          simp [safe_cancel, clearSlot, place_limit, setSlot, ho]

theorem process_slot_prices_other (s : CState) (t : Ticker) (sd : Side) (target tol : ℚ)
    (can : Bool) (t' : Ticker) (sd' : Side) (h : ¬(t' = t ∧ sd' = sd)) :
    (process_slot s t sd target tol can).1.order_book_prices t' sd' =
      s.order_book_prices t' sd' := by
  simp only [process_slot]
  split_ifs <;>
    cases ho : s.order_book_orders t sd <;>
      simp [safe_cancel, clearSlot, place_limit, setSlot, updSlot, ho, h]

theorem process_slot_orders_other (s : CState) (t : Ticker) (sd : Side) (target tol : ℚ)
    (can : Bool) (t' : Ticker) (sd' : Side) (h : ¬(t' = t ∧ sd' = sd)) :
    (process_slot s t sd target tol can).1.order_book_orders t' sd' =
      s.order_book_orders t' sd' := by
  simp only [process_slot]
  split_ifs <;>
    cases ho : s.order_book_orders t sd <;>
      simp [safe_cancel, clearSlot, place_limit, setSlot, updSlot, ho, h]

theorem process_slot_settles (s : CState) (t : Ticker) (sd : Side) (target tol : ℚ)
    (can : Bool) :
    slotSettled ((process_slot s t sd target tol can).1.order_book_prices t sd)
      ((process_slot s t sd target tol can).1.order_book_orders t sd) target tol can := by
  simp only [process_slot]
  split_ifs with h1 h2
  · left
    cases ho : s.order_book_orders t sd <;>
      simp [safe_cancel, clearSlot, place_limit, setSlot, updSlot, ho]
  · right; left
    refine ⟨?_, Bool.eq_false_iff.mpr h2⟩
    cases ho : s.order_book_orders t sd <;>
      simp [safe_cancel, clearSlot, updSlot, ho]
  · right; right
    exact Bool.eq_false_iff.mpr h1

theorem process_slot_noop (s : CState) (t : Ticker) (sd : Side) (target tol : ℚ)
    (can : Bool) (h0 : 0 < tol)
    (h : slotSettled (s.order_book_prices t sd) (s.order_book_orders t sd) target tol can) :
    process_slot s t sd target tol can = (s, []) := by
  rcases h with h | ⟨ho, hc⟩ | h
  · have habs : ¬ (|target - target| > tol) := by
      rw [sub_self, abs_zero]
      exact not_lt.2 h0.le
    have hnr : needs_replace (s.order_book_prices t sd) target tol = false := by
      simp [needs_replace, h, habs]
      exact h0.le
    simp [process_slot, hnr]
  · simp [process_slot, safe_cancel, ho, hc]
  · simp [process_slot, h]

theorem mm_tol_pos (bid ask : ℚ) : 0 < mm_tol bid ask :=
  lt_of_lt_of_le (by norm_num) (le_max_left _ _)

theorem manage_none_bid (s : CState) (t : Ticker) (hb : s.best_bid t = none) :
    manage_market_maker s t = (s, []) := by
  unfold manage_market_maker
  rw [hb]

theorem manage_none_ask (s : CState) (t : Ticker) (ha : s.best_ask t = none) :
    manage_market_maker s t = (s, []) := by
  unfold manage_market_maker
  rw [ha]
  cases s.best_bid t <;> rfl

theorem manage_skip (s : CState) (t : Ticker) (bid ask : ℚ)
    (hb : s.best_bid t = some bid) (ha : s.best_ask t = some ask)
    (hep : expected_profit (mm_target_buy bid ask) (mm_target_sell bid ask)
      order_size fee_rate ≤ 0) :
    manage_market_maker s t = (s, []) := by
  simp only [manage_market_maker, hb, ha]
  rw [if_pos hep]

theorem manage_go (s : CState) (t : Ticker) (bid ask : ℚ)
    (hb : s.best_bid t = some bid) (ha : s.best_ask t = some ask)
    (hep : ¬ (expected_profit (mm_target_buy bid ask) (mm_target_sell bid ask)
      order_size fee_rate ≤ 0)) :
    manage_market_maker s t =
      ((process_slot (process_slot s t Side.BUY (mm_target_buy bid ask) (mm_tol bid ask)
          (decide (s.positions t < max_position) &&
            decide (s.capital > mm_target_buy bid ask * order_size))).1
          t Side.SELL (mm_target_sell bid ask) (mm_tol bid ask)
          (decide (s.positions t > -max_position))).1,
        (process_slot s t Side.BUY (mm_target_buy bid ask) (mm_tol bid ask)
          (decide (s.positions t < max_position) &&
            decide (s.capital > mm_target_buy bid ask * order_size))).2 ++
        (process_slot (process_slot s t Side.BUY (mm_target_buy bid ask) (mm_tol bid ask)
          (decide (s.positions t < max_position) &&
            decide (s.capital > mm_target_buy bid ask * order_size))).1
          t Side.SELL (mm_target_sell bid ask) (mm_tol bid ask)
          (decide (s.positions t > -max_position))).2) := by
  simp only [manage_market_maker, hb, ha]
  rw [if_neg hep]

theorem slots_noop_after (s : CState) (t : Ticker) (TB TS TOL : ℚ) (h0 : 0 < TOL)
    (CB CS : Bool) :
    process_slot ((process_slot ((process_slot s t Side.BUY TB TOL CB).1)
        t Side.SELL TS TOL CS).1) t Side.BUY TB TOL CB =
      (((process_slot ((process_slot s t Side.BUY TB TOL CB).1)
        t Side.SELL TS TOL CS).1), []) ∧
    process_slot ((process_slot ((process_slot s t Side.BUY TB TOL CB).1)
        t Side.SELL TS TOL CS).1) t Side.SELL TS TOL CS =
      (((process_slot ((process_slot s t Side.BUY TB TOL CB).1)
        t Side.SELL TS TOL CS).1), []) := by
  set S1 := (process_slot s t Side.BUY TB TOL CB).1 with hS1
  set S2 := (process_slot S1 t Side.SELL TS TOL CS).1 with hS2
  constructor
  · apply process_slot_noop _ _ _ _ _ _ h0
    have hpr : S2.order_book_prices t Side.BUY = S1.order_book_prices t Side.BUY :=
      process_slot_prices_other S1 t Side.SELL TS TOL CS t Side.BUY (by simp)
    have hor : S2.order_book_orders t Side.BUY = S1.order_book_orders t Side.BUY :=
      process_slot_orders_other S1 t Side.SELL TS TOL CS t Side.BUY (by simp)
    rw [hpr, hor, hS1]
    exact process_slot_settles s t Side.BUY TB TOL CB
  · apply process_slot_noop _ _ _ _ _ _ h0
    rw [hS2]
    exact process_slot_settles S1 t Side.SELL TS TOL CS

theorem manage_idem (s : CState) (t : Ticker) :
    (manage_market_maker (manage_market_maker s t).1 t).2 = [] := by
  cases hb : s.best_bid t with
  | none => rw [manage_none_bid s t hb, manage_none_bid s t hb]
  | some bid =>
    cases ha : s.best_ask t with
    | none => rw [manage_none_ask s t ha, manage_none_ask s t ha]
    | some ask =>
      by_cases hep : expected_profit (mm_target_buy bid ask) (mm_target_sell bid ask)
          order_size fee_rate ≤ 0
      · rw [manage_skip s t bid ask hb ha hep, manage_skip s t bid ask hb ha hep]
      · rw [manage_go s t bid ask hb ha hep]
        obtain ⟨f1b, f1a, f1p, f1c⟩ := process_slot_frame s t Side.BUY
          (mm_target_buy bid ask) (mm_tol bid ask)
          (decide (s.positions t < max_position) &&
            decide (s.capital > mm_target_buy bid ask * order_size))
        obtain ⟨f2b, f2a, f2p, f2c⟩ := process_slot_frame
          (process_slot s t Side.BUY (mm_target_buy bid ask) (mm_tol bid ask)
            (decide (s.positions t < max_position) &&
              decide (s.capital > mm_target_buy bid ask * order_size))).1
          t Side.SELL (mm_target_sell bid ask) (mm_tol bid ask)
          (decide (s.positions t > -max_position))
        rw [manage_go _ t bid ask (f2b.trans f1b ▸ hb) (f2a.trans f1a ▸ ha) hep,
          f2p.trans f1p, f2c.trans f1c]
        obtain ⟨q1, q2⟩ := slots_noop_after s t (mm_target_buy bid ask)
          (mm_target_sell bid ask) (mm_tol bid ask) (mm_tol_pos bid ask)
          (decide (s.positions t < max_position) &&
            decide (s.capital > mm_target_buy bid ask * order_size))
          (decide (s.positions t > -max_position))
        rw [q1]
        simpa using congrArg Prod.snd q2

end Crypto

/-- Claim C4 (amended): the fee-aware gate computes expected profit exactly as
`(sellPrice - buyPrice)*size - (sellPrice + buyPrice)*size*feeRate` and skips
the whole cycle (no state change, no calls) whenever this is not positive —
but at buyPrice 100, sellPrice 100.5, size 1, feeRate 0.004 the profit is
-0.302 (the round-trip fee is 0.802, not 0.402), so this pair is rejected,
not accepted; at feeRate 0.01 it is -1.505, also rejected. -/
theorem claim_C4 :
    (∀ (s : Crypto.CState) (t : Ticker) (bid ask : ℚ),
      s.best_bid t = some bid → s.best_ask t = some ask →
      Crypto.expected_profit (Crypto.mm_target_buy bid ask) (Crypto.mm_target_sell bid ask)
        Crypto.order_size Crypto.fee_rate ≤ 0 →
      Crypto.manage_market_maker s t = (s, [])) ∧
    Crypto.expected_profit 100 (201/2) 1 (4/1000) < 0 ∧
    Crypto.expected_profit 100 (201/2) 1 (1/100) < 0 := by
  refine ⟨fun s t bid ask hb ha hep => Crypto.manage_skip s t bid ask hb ha hep, ?_, ?_⟩ <;>
    norm_num [Crypto.expected_profit]

/-- Counterexample for C4 as stated: at buyPrice 100, sellPrice 100.5, size 1,
feeRate 0.004 the computed expected profit is -151/500 = -0.302, not the
claimed 0.098, and it is not positive, so the pair is not accepted. -/
theorem claim_C4_counterexample :
    Crypto.expected_profit 100 (201/2) 1 (4/1000) = -(151/500) ∧
    ¬ (0 < Crypto.expected_profit 100 (201/2) 1 (4/1000)) := by
  norm_num [Crypto.expected_profit]

/-- Witness for C4: with best bid and ask both 100 the computed quote pair
has expected profit 0, and the gate skips the cycle entirely. -/
theorem claim_C4_witness :
    Crypto.expected_profit (Crypto.mm_target_buy 100 100) (Crypto.mm_target_sell 100 100)
      Crypto.order_size Crypto.fee_rate ≤ 0 ∧
    Crypto.manage_market_maker c4s Ticker.ETH = (c4s, []) := by
  have hep : Crypto.expected_profit (Crypto.mm_target_buy 100 100)
      (Crypto.mm_target_sell 100 100) Crypto.order_size Crypto.fee_rate ≤ 0 := by
    norm_num [Crypto.expected_profit, Crypto.mm_target_buy, Crypto.mm_target_sell,
      Crypto.mm_mid, Crypto.mm_tick, Crypto.mm_min_tick, Crypto.mm_spread,
      Crypto.fee_rate, Crypto.order_size, Crypto.round8, Crypto.roundHalfEven, max_def]
  exact ⟨hep, claim_C4.1 c4s Ticker.ETH 100 100 rfl rfl hep⟩

/-- Claim C5 (amended): the crypto reconciliation pass is idempotent — running
`_manage_market_maker` again immediately on its own output state issues zero
collaborator calls on the second pass, for every state.  The template
variant's `update_quotes` is not idempotent: it unconditionally cancels and
re-places on every pass (see the counterexample). -/
theorem claim_C5 (s : Crypto.CState) (t : Ticker) :
    (Crypto.manage_market_maker (Crypto.manage_market_maker s t).1 t).2 = [] :=
  Crypto.manage_idem s t

/-- Counterexample for C5 as stated of the template variant: with unchanged
inputs (same book, same empty trade window, same time), the second
`update_quotes` pass issues four additional collaborator calls (two cancels
and two placements), not zero. -/
theorem claim_C5_counterexample :
    (Template.update_quotes (Template.update_quotes c5s Ticker.LTC 0).1 Ticker.LTC 0).2 ≠ [] ∧
    ((Template.update_quotes (Template.update_quotes c5s Ticker.LTC 0).1 Ticker.LTC 0).2).length
      = 4 := by
  norm_num [Template.update_quotes, Template.get_book_imbalance, Template.get_flow_imbalance,
    Template.flowAgg, Template.FLOW_MIN, Template.FLOW_MAX, Template.BOOK_THRESHOLD,
    Template.TRADE_WINDOW, Template.MID_SHIFT, bookSum, bookMax, bookMin, c5s, updT,
    List.foldl]
  simp

/-- Claim C6 (amended): in the crypto variant a failing collaborator call
never escapes the strategy code — `_safe_cancel` and `_place_limit` absorb
the exception.  A failed cancel still clears the slot optimistically (it is
not left in its prior state; see the counterexample), while a failed
placement leaves the slot in its prior state, to be corrected on the next
reconciliation cycle. -/
theorem claim_C6 (throws : Bool) (s : Crypto.CState) (t : Ticker) (sd : Side)
    (qty price : ℚ) :
    (∃ r, Crypto.safe_cancelX throws s t sd = Except.ok r ∧
      r.1.order_book_orders t sd = none) ∧
    Crypto.place_limitX true s sd t qty price = Except.ok (s, []) := by
  constructor
  · cases ho : s.order_book_orders t sd with
    | none => exact ⟨(s, []), by simp [Crypto.safe_cancelX, ho], ho⟩
    | some oid =>
      refine ⟨(Crypto.clearSlot s t sd, [Call.cancel t oid]), ?_, ?_⟩
      · cases throws <;> simp [Crypto.safe_cancelX, ho, Crypto.cancel_orderX]
      · simp [Crypto.clearSlot, Crypto.updSlot]
  · rfl

/-- Counterexample for C6 as stated: a resting order id 7 whose cancel call
raises is not left in its prior state — the slot is cleared to `none` even
though the collaborator failed. -/
theorem claim_C6_counterexample :
    c6s.order_book_orders Ticker.ETH Side.BUY = some 7 ∧
    Crypto.safe_cancelX true c6s Ticker.ETH Side.BUY =
      Except.ok (Crypto.clearSlot c6s Ticker.ETH Side.BUY, [Call.cancel Ticker.ETH 7]) ∧
    (Crypto.clearSlot c6s Ticker.ETH Side.BUY).order_book_orders Ticker.ETH Side.BUY
      = none := by
  refine ⟨rfl, rfl, ?_⟩
  simp [Crypto.clearSlot, Crypto.updSlot, c6s]

/-- Claim C8 (amended): with a resting order recorded in a slot, the pass
cancels it iff the resting price deviates from the computed target by more
than the tolerance `max(0.0001, 0.5*tick)` — the fixed minimum is 0.0001, not
a configurable `minTick`, and `tick = max(mid*feeRate, 0.35*spread)`, so at
prices near 100 with feeRate 0.004 the tolerance is at least about 0.2;
within tolerance the order is left resting with no collaborator calls. -/
theorem claim_C8 (s : Crypto.CState) (t : Ticker) (sd : Side) (target tol : ℚ)
    (can : Bool) (p : ℚ) (oid : Nat)
    (hp : s.order_book_prices t sd = some p)
    (ho : s.order_book_orders t sd = some oid) :
    (¬ (|p - target| > tol) → Crypto.process_slot s t sd target tol can = (s, [])) ∧
    (|p - target| > tol → (Crypto.process_slot s t sd target tol can).2 =
      Call.cancel t oid ::
        (if can then [Call.limit sd t Crypto.order_size target false] else [])) := by
  constructor
  · intro h
    have hnr : Crypto.needs_replace (s.order_book_prices t sd) target tol = false := by
      simp [Crypto.needs_replace, hp, h]
    simp [Crypto.process_slot, hnr]
  · intro h
    have hnr : Crypto.needs_replace (s.order_book_prices t sd) target tol = true := by
      simp [Crypto.needs_replace, hp, h]
    cases can <;>
      simp [Crypto.process_slot, hnr, Crypto.safe_cancel, ho, Crypto.place_limit,
        Crypto.setSlot, Crypto.clearSlot]

/-- Counterexample for C8 as stated: with best bid 99.5 and best ask 101.5 the
computed buy target is exactly 99.80 while a buy rests at 99.90 — the claim
says this deviation of 0.10 triggers cancel-then-place, but the code's
tolerance is max(0.0001, 0.5*0.7) = 0.35, so the buy order is left resting:
the pass issues no cancel at all, only the sell-side placement. -/
theorem claim_C8_counterexample :
    c8s.order_book_prices Ticker.ETH Side.BUY = some (999/10) ∧
    Crypto.mm_target_buy (199/2) (203/2) = 499/5 ∧
    (Crypto.manage_market_maker c8s Ticker.ETH).1.order_book_orders Ticker.ETH Side.BUY
      = some 7 ∧
    (Crypto.manage_market_maker c8s Ticker.ETH).2 =
      [Call.limit Side.SELL Ticker.ETH 1 (506/5) false] := by
  have htb : Crypto.mm_target_buy (199/2) (203/2) = 499/5 := by
    norm_num [Crypto.mm_target_buy, Crypto.mm_mid, Crypto.mm_tick, Crypto.mm_min_tick,
      Crypto.mm_spread, Crypto.fee_rate, Crypto.round8, Crypto.roundHalfEven, max_def]
  have hts : Crypto.mm_target_sell (199/2) (203/2) = 506/5 := by
    norm_num [Crypto.mm_target_sell, Crypto.mm_mid, Crypto.mm_tick, Crypto.mm_min_tick,
      Crypto.mm_spread, Crypto.fee_rate, Crypto.round8, Crypto.roundHalfEven, max_def]
  have htol : Crypto.mm_tol (199/2) (203/2) = 7/20 := by
    norm_num [Crypto.mm_tol, Crypto.mm_tick, Crypto.mm_min_tick, Crypto.mm_mid,
      Crypto.mm_spread, Crypto.fee_rate, max_def]
  have hep : ¬ (Crypto.expected_profit (Crypto.mm_target_buy (199/2) (203/2))
      (Crypto.mm_target_sell (199/2) (203/2)) Crypto.order_size Crypto.fee_rate ≤ 0) := by
    rw [htb, hts]
    norm_num [Crypto.expected_profit, Crypto.order_size, Crypto.fee_rate]
  have e := Crypto.manage_go c8s Ticker.ETH (199/2) (203/2) rfl rfl hep
  have h1 : ∀ can : Bool, Crypto.process_slot c8s Ticker.ETH Side.BUY
      (Crypto.mm_target_buy (199/2) (203/2)) (Crypto.mm_tol (199/2) (203/2)) can
      = (c8s, []) := by
    intro can
    have hnr : Crypto.needs_replace (c8s.order_book_prices Ticker.ETH Side.BUY)
        (Crypto.mm_target_buy (199/2) (203/2)) (Crypto.mm_tol (199/2) (203/2)) = false := by
      rw [htb, htol, show c8s.order_book_prices Ticker.ETH Side.BUY = some (999/10) from rfl]
      simp only [Crypto.needs_replace]
      rw [show (999 : ℚ)/10 - 499/5 = 1/10 by norm_num,
        abs_of_pos (by norm_num : (0 : ℚ) < 1/10)]
      norm_num
    simp [Crypto.process_slot, hnr]
  have hcan : decide (c8s.positions Ticker.ETH > -Crypto.max_position) = true := by
    norm_num [c8s, Crypto.initC, Crypto.max_position]
  have h2 : Crypto.process_slot c8s Ticker.ETH Side.SELL
      (Crypto.mm_target_sell (199/2) (203/2)) (Crypto.mm_tol (199/2) (203/2))
      (decide (c8s.positions Ticker.ETH > -Crypto.max_position)) =
      (Crypto.setSlot c8s Ticker.ETH Side.SELL 0 (Crypto.mm_target_sell (199/2) (203/2)),
       [Call.limit Side.SELL Ticker.ETH Crypto.order_size
         (Crypto.mm_target_sell (199/2) (203/2)) false]) := by
    have hpn : c8s.order_book_prices Ticker.ETH Side.SELL = none := rfl
    have hon : c8s.order_book_orders Ticker.ETH Side.SELL = none := rfl
    simp [Crypto.process_slot, Crypto.needs_replace, hpn, hon, Crypto.safe_cancel, hcan,
      Crypto.place_limit]
  refine ⟨rfl, htb, ?_, ?_⟩
  · rw [e, h1, h2]
    simp [Crypto.setSlot, Crypto.updSlot]
    rfl
  · rw [e, h1, h2, hts]
    simp [Crypto.order_size]

/-- Witness for C8: at the concrete state of the counterexample, the resting
buy at 99.90 with target 99.80 and tolerance 0.35 is within tolerance, so the
pass leaves the slot untouched with no calls. -/
theorem claim_C8_witness :
    c8s.order_book_prices Ticker.ETH Side.BUY = some (999/10) ∧
    Crypto.process_slot c8s Ticker.ETH Side.BUY (499/5) (7/20) true = (c8s, []) := by
  refine ⟨rfl, ?_⟩
  refine (claim_C8 c8s Ticker.ETH Side.BUY (499/5) (7/20) true (999/10) 7 rfl rfl).1 ?_
  rw [show (999 : ℚ)/10 - 499/5 = 1/10 by norm_num,
    abs_of_pos (by norm_num : (0 : ℚ) < 1/10)]
  norm_num

